import Mathlib

/-!
# SmartETL — verification of the profiler, feature engineer and pipeline generator

Shallow embedding of the SmartETL-Predictive-Analytics sources:

* `src/Source code/data_cleaner.py`       — class `DataProfiler`
* `src/Source code/feature_engineer.py`   — class `FeatureEngineer`
* `src/Source code/pipeline_generator.py` — class `PipelineGenerator`

A pandas `DataFrame` is modelled as an ordered list of named, typed columns of
cells; machine floats are modelled as exact rationals (`ℚ`), with `NaN`
represented by a dedicated missing cell.  Library calls (pandas, sklearn) that
the sources make are modelled at the granularity the sources use them, with a
documentation comment at each such definition stating the library behaviour
being modelled.
-/

namespace SmartETL

/-- The date/time components that the sources extract from a parsed datetime
value via the pandas `.dt` accessors (`year`, `month`, `day`, `dayofweek`,
`quarter` in `FeatureEngineer._create_temporal_features`). -/
structure DtParts where
  year : Int
  month : Int
  day : Int
  dayofweek : Int
  quarter : Int
deriving DecidableEq, Repr

/-- One cell of a pandas column: missing (`NaN`/`NaT`), a number, a string, or
a datetime value. -/
inductive Value where
  | na : Value
  | num : ℚ → Value
  | str : String → Value
  | dt : DtParts → Value
deriving DecidableEq, Repr

/-- The stored dtype of a pandas column: `float` stands for any numeric dtype
(what `pd.api.types.is_numeric_dtype` accepts and `select_dtypes(include=[np.number])`
selects), `obj` for the object/string dtype, `datetime` for `datetime64`. -/
inductive Dtype where
  | float : Dtype
  | obj : Dtype
  | datetime : Dtype
deriving DecidableEq, Repr

/-- A named pandas column. -/
structure Column where
  name : String
  dtype : Dtype
  values : List Value
deriving DecidableEq, Repr

/-- A pandas `DataFrame`: an ordered list of columns. -/
structure DataFrame where
  cols : List Column
deriving DecidableEq, Repr

namespace DataFrame

/-- `df.columns` as a list of names. -/
def names (df : DataFrame) : List String := df.cols.map (·.name)

/-- `df.shape[0]`: the common length of the columns (0 for an empty frame). -/
def numRows (df : DataFrame) : ℕ := ((df.cols.head?).map (·.values.length)).getD 0

/-- Well-formedness: all columns have the row count of the frame. -/
def WF (df : DataFrame) : Prop := ∀ c ∈ df.cols, c.values.length = df.numRows

/-- Column lookup by label (first match, as pandas label indexing). -/
def getCol? (df : DataFrame) (n : String) : Option Column := df.cols.find? (·.name == n)

/-- `df[n]` as a list of cells (`[]` when the label is absent). -/
def colVals (df : DataFrame) (n : String) : List Value := ((df.getCol? n).map (·.values)).getD []

/-- `n in df.columns`. -/
def hasCol (df : DataFrame) (n : String) : Bool := df.cols.any (·.name == n)

/-- `df[n] = series`: pandas column assignment — replaces the column in place
when the label exists, appends a new column at the end otherwise. -/
def setCol (df : DataFrame) (n : String) (dt : Dtype) (vs : List Value) : DataFrame :=
  if df.hasCol n then
    ⟨df.cols.map fun c => if c.name == n then ⟨n, dt, vs⟩ else c⟩
  else
    ⟨df.cols ++ [⟨n, dt, vs⟩]⟩

end DataFrame

/-! ## DataProfiler (`src/Source code/data_cleaner.py`) -/

/-- `series.nunique()`: the number of distinct non-missing values. -/
def nuniqueVals (vs : List Value) : ℕ := ((vs.filter (· ≠ .na)).dedup).length

/-- `pd.api.types.is_numeric_dtype(col_data)`. -/
def isNumericDtype (c : Column) : Bool := c.dtype == .float

/-- Element-level success of `pd.to_datetime(series, errors='raise')`, as
called by `DataProfiler._is_datetime_column`.  Pandas behaviour modelled here:
a missing cell converts to `NaT`; a cell that already holds a datetime
converts; a NUMERIC cell always converts (pandas interprets integers and
floats as epoch offsets in nanoseconds, so `pd.to_datetime` never raises on a
numeric series); a string cell converts exactly when the library's date parser
accepts it, which is kept abstract as the parameter `p`. -/
def toDatetimeOk (p : String → Bool) : Value → Bool
  | .na => true
  | .num _ => true
  | .dt _ => true
  | .str s => p s

/-- `DataProfiler._is_datetime_column` (data_cleaner.py lines 75-85): true when
the stored dtype is already datetime64, or when `pd.to_datetime` converts the
whole column without raising. -/
def isDatetimeColumn (p : String → Bool) (c : Column) : Bool :=
  c.dtype == .datetime || c.values.all (toDatetimeOk p)

/-- Modelled from the spec: the intended datetime test of
`DataProfiler._is_datetime_column`, whose own docstring reads "Check if column
contains datetime data" and which the spec renders as "every non-missing value
can be parsed as a date/time".  Under the intent, a plain number is not
date/time data, so a numeric cell does not qualify; only missing cells, cells
already holding datetimes, and parseable date strings do. -/
def specDatetimeOk (p : String → Bool) : Value → Bool
  | .na => true
  | .num _ => false
  | .dt _ => true
  | .str s => p s

/-- The intended (spec) reading of `_is_datetime_column`; compare
`isDatetimeColumn`, which models the code's actual library call. -/
def isDatetimeColumnSpec (p : String → Bool) (c : Column) : Bool :=
  c.dtype == .datetime || c.values.all (specDatetimeOk p)

/-- `DataProfiler._is_categorical_column` (data_cleaner.py lines 87-92):
object-dtype columns with distinct-to-length ratio below 0.5 and fewer than
100 distinct values. -/
def isCategoricalColumn (c : Column) : Bool :=
  c.dtype == .obj &&
    (decide ((nuniqueVals c.values : ℚ) / (c.values.length : ℚ) < 1/2)
      && decide (nuniqueVals c.values < 100))

/-- The per-column body of `DataProfiler._infer_data_types` (data_cleaner.py
lines 50-73): datetime check first, then string-categorical, then the
`nunique() < 10` rule for numeric columns, else text. -/
def inferColumnType (p : String → Bool) (c : Column) : String :=
  if isDatetimeColumn p c then "datetime"
  else if isCategoricalColumn c then "categorical"
  else if isNumericDtype c then
    (if nuniqueVals c.values < 10 then "categorical" else "numerical")
  else "text"

/-- `inferColumnType` with the intended (spec) datetime test substituted. -/
def inferColumnTypeSpec (p : String → Bool) (c : Column) : String :=
  if isDatetimeColumnSpec p c then "datetime"
  else if isCategoricalColumn c then "categorical"
  else if isNumericDtype c then
    (if nuniqueVals c.values < 10 then "categorical" else "numerical")
  else "text"

/-- `DataProfiler._infer_data_types`: the column → type-label mapping. -/
def inferDataTypes (p : String → Bool) (df : DataFrame) : List (String × String) :=
  df.cols.map fun c => (c.name, inferColumnType p c)

/-- `data.isnull().sum().sum()`: the count of missing cells. -/
def missingCells (df : DataFrame) : ℕ :=
  (df.cols.map fun c => (c.values.filter (· == Value.na)).length).sum

/-- `data.shape[0] * data.shape[1]`. -/
def totalCells (df : DataFrame) : ℕ := df.numRows * df.cols.length

/-- Row `i` of the frame, as read by `data.duplicated()`. -/
def rowAt (df : DataFrame) (i : ℕ) : List Value := df.cols.map fun c => c.values.getD i .na

/-- `data.duplicated().sum()`: the number of rows equal to some earlier row
(pandas marks every occurrence after the first; `NaN` cells compare equal to
each other for this purpose, as in pandas). -/
def duplicatedCount (df : DataFrame) : ℕ :=
  ((List.range df.numRows).filter fun i =>
    (List.range i).any fun j => decide (rowAt df j = rowAt df i)).length

/-- `completeness_score` of `DataProfiler._calculate_quality_metrics`
(data_cleaner.py line 135): `100 * (1 - missing_cells / total_cells)`. -/
def completeness_score (df : DataFrame) : ℚ :=
  100 * (1 - (missingCells df : ℚ) / (totalCells df : ℚ))

/-- `duplicate_penalty` (data_cleaner.py line 130):
`data.duplicated().sum() / len(data) * 10`. -/
def duplicatePenalty (df : DataFrame) : ℚ :=
  (duplicatedCount df : ℚ) / (df.numRows : ℚ) * 10

/-- `overall_quality_score` (data_cleaner.py lines 127-134): the completeness
score minus the duplicate penalty, floored at 0 by `max(0, quality_score)`. -/
def overall_quality_score (df : DataFrame) : ℚ :=
  max 0 (completeness_score df - duplicatePenalty df)

/-- `uniqueness_score` (data_cleaner.py line 136). -/
def uniqueness_score (df : DataFrame) : ℚ :=
  100 * (1 - (duplicatedCount df : ℚ) / (df.numRows : ℚ))

/-! ## FeatureEngineer (`src/Source code/feature_engineer.py`) -/

/-- The instance state of `FeatureEngineer` (feature_engineer.py lines 13-18):
`max_features` from the constructor, the created-feature name list, the
selected-feature name list, and the feature → importance-score mapping. -/
structure FeatureEngineer where
  max_features : ℕ
  created_features : List String
  selected_features : List String
  feature_importance : List (String × ℚ)
deriving DecidableEq, Repr

/-- `FeatureEngineer()` with the default `max_features=50` and empty lists. -/
def FeatureEngineer.init : FeatureEngineer := ⟨50, [], [], []⟩

/-- Does `pat` occur as a contiguous run inside the list? -/
def subOf (pat : List Char) : List Char → Bool
  | [] => pat.isEmpty
  | a :: rest => pat.isPrefixOf (a :: rest) || subOf pat rest

/-- The column-name test of `_create_temporal_features` (feature_engineer.py
lines 56-59): the lowercased name contains `date` or `time` (Python's
`'date' in col.lower()`). -/
def isTemporalName (n : String) : Bool :=
  subOf "date".data (n.data.map Char.toLower) || subOf "time".data (n.data.map Char.toLower)

/-- Whole-column `pd.to_datetime(engineered_data[col])` as called in
`_create_temporal_features` (line 64): succeeds iff every non-missing cell
converts, in which case missing cells become `NaT` and the others datetime
values.  The element-level parser of the library is the parameter `conv`
(a cell it cannot interpret yields `none`, making the call raise). -/
def convertDatetime (conv : Value → Option DtParts) (vs : List Value) :
    Option (List Value) :=
  if vs.all (fun v => v == Value.na || (conv v).isSome) then
    some (vs.map fun v =>
      if v == Value.na then Value.na
      else match conv v with
        | some d => Value.dt d
        | none => Value.na)
  else none

/-- `.dt.year` applied to one cell (`NaT` propagates as missing). -/
def dtYear : Value → Value
  | .dt d => .num (d.year : ℚ)
  | _ => .na

/-- `.dt.month` applied to one cell. -/
def dtMonth : Value → Value
  | .dt d => .num (d.month : ℚ)
  | _ => .na

/-- `.dt.day` applied to one cell. -/
def dtDay : Value → Value
  | .dt d => .num (d.day : ℚ)
  | _ => .na

/-- `.dt.dayofweek` applied to one cell. -/
def dtDayofweek : Value → Value
  | .dt d => .num (d.dayofweek : ℚ)
  | _ => .na

/-- `.dt.quarter` applied to one cell. -/
def dtQuarter : Value → Value
  | .dt d => .num (d.quarter : ℚ)
  | _ => .na

/-- One iteration of the loop of `_create_temporal_features` (feature_engineer.py
lines 61-80), acting on the accumulated (created-feature names, frame) pair:
try to convert the column to datetime; on failure `continue`; on success
overwrite the column and add the five extracted columns, recording their names
in order. -/
def temporalStep (conv : Value → Option DtParts) (acc : List String × DataFrame)
    (col : String) : List String × DataFrame :=
  let (ns, d) := acc
  match convertDatetime conv (d.colVals col) with
  | none => (ns, d)
  | some cv =>
    let d1 := d.setCol col .datetime cv
    let d2 := d1.setCol (col ++ "_year") .float (cv.map dtYear)
    let d3 := d2.setCol (col ++ "_month") .float (cv.map dtMonth)
    let d4 := d3.setCol (col ++ "_day") .float (cv.map dtDay)
    let d5 := d4.setCol (col ++ "_dayofweek") .float (cv.map dtDayofweek)
    let d6 := d5.setCol (col ++ "_quarter") .float (cv.map dtQuarter)
    (ns ++ [col ++ "_year", col ++ "_month", col ++ "_day",
            col ++ "_dayofweek", col ++ "_quarter"], d6)

/-- `_create_temporal_features` (feature_engineer.py lines 51-82), acting on
the copy's content: the candidate columns are gathered up front from the
column names, then processed in order.  Returns the names appended to
`self.created_features` (in the order the loop appends them) and the new
frame. -/
def temporalCore (conv : Value → Option DtParts) (df : DataFrame) :
    List String × DataFrame :=
  (df.names.filter isTemporalName).foldl (temporalStep conv) ([], df)

/-- Numeric-dtype column names, in table order
(`data.select_dtypes(include=[np.number]).columns.tolist()`). -/
def numericNames (df : DataFrame) : List String :=
  (df.cols.filter fun c => c.dtype == .float).map (·.name)

/-- Elementwise product of two numeric series; a missing operand yields a
missing cell, as in pandas. -/
def vmul : Value → Value → Value
  | .num a, .num b => .num (a * b)
  | _, _ => .na

/-- Elementwise quotient of two numeric series.  The sources only divide by a
column verified to contain no zero, so the zero-denominator case (±inf in
pandas, unrepresentable here) is mapped to a missing cell. -/
def vdiv : Value → Value → Value
  | .num a, .num b => if b = 0 then .na else .num (a / b)
  | _, _ => .na

/-- `(series != 0).all()` as checked at feature_engineer.py line 101.  In
pandas `NaN != 0` is elementwise `True`, so only a literal zero cell fails
the test. -/
def noZero (vs : List Value) : Bool := vs.all fun v => v != Value.num 0

/-- The generated interaction-column names for the pair `(col1, col2)`. -/
def xName (p : String × String) : String := p.1 ++ "_x_" ++ p.2

/-- The generated ratio-column name for the pair `(col1, col2)`. -/
def divName (p : String × String) : String := p.1 ++ "_div_" ++ p.2

/-- The ordered pairs `(col1, col2)` visited by the nested loops at
feature_engineer.py lines 94-95 (`col2` ranges over `numerical_cols[i+1:]`). -/
def pairsOf : List String → List (String × String)
  | [] => []
  | c :: rest => rest.map (fun d => (c, d)) ++ pairsOf rest

/-- The body of one pair iteration of `_create_interaction_features`
(feature_engineer.py lines 96-103): always add the product column; add the
ratio column only when the (current) denominator column contains no zero. -/
def interactionStep (acc : List String × DataFrame) (p : String × String) :
    List String × DataFrame :=
  let (ns, d) := acc
  let d1 := d.setCol (xName p) .float (List.zipWith vmul (d.colVals p.1) (d.colVals p.2))
  let ns1 := ns ++ [xName p]
  if noZero (d1.colVals p.2) then
    (ns1 ++ [divName p],
     d1.setCol (divName p) .float (List.zipWith vdiv (d1.colVals p.1) (d1.colVals p.2)))
  else (ns1, d1)

/-- `_create_interaction_features` (feature_engineer.py lines 84-106), acting
on the copy's content: the numeric columns are read from the argument and
truncated to the first 5, then every ordered pair is processed. -/
def interactionCore (df : DataFrame) : List String × DataFrame :=
  (pairsOf ((numericNames df).take 5)).foldl interactionStep ([], df)

/-- The trailing window `rolling(window=3, min_periods=1)` presents at row
`i`: the at-most-3 cells ending at row `i`. -/
def windowAt (vs : List Value) (i : ℕ) : List Value := (vs.take (i + 1)).drop (i + 1 - 3)

/-- The non-missing observations of a window, as pandas rolling aggregation
sees them. -/
def obsOf (w : List Value) : List ℚ :=
  w.filterMap fun v => match v with
    | .num q => some q
    | _ => none

/-- `series.rolling(window=3, min_periods=1).mean()` at row `i`: missing when
the window holds no observation (fewer than `min_periods=1`), else the mean of
the observations. -/
def rollingMeanCell (vs : List Value) (i : ℕ) : Value :=
  let obs := obsOf (windowAt vs i)
  if obs.length = 0 then .na else .num (obs.sum / (obs.length : ℚ))

/-- The sample variance (`ddof=1`, the pandas default) of a list of
observations; only applied to lists with at least two elements. -/
def sampleVariance (obs : List ℚ) : ℚ :=
  let m := obs.sum / (obs.length : ℚ)
  (obs.map fun x => (x - m) ^ 2).sum / ((obs.length : ℚ) - 1)

/-- `series.rolling(window=3, min_periods=1).std()` at row `i`.  Pandas
produces a missing cell when the window holds fewer than 2 observations (a
single observation has no sample standard deviation under `ddof=1`), else the
square root of the sample variance.  Since that square root is irrational in
general and no claim inspects the numeric value of a rolling-std cell, the
cell is modelled as carrying the sample variance; a cell is missing here
exactly when the source's cell is missing. -/
def rollingStdCell (vs : List Value) (i : ℕ) : Value :=
  let obs := obsOf (windowAt vs i)
  if obs.length < 2 then .na else .num (sampleVariance obs)

/-- The whole rolling-mean series. -/
def rollingMeanCells (vs : List Value) : List Value :=
  (List.range vs.length).map (rollingMeanCell vs)

/-- The whole rolling-std series. -/
def rollingStdCells (vs : List Value) : List Value :=
  (List.range vs.length).map (rollingStdCell vs)

/-- One iteration of the loop of `_create_statistical_features`
(feature_engineer.py lines 115-121): add the rolling-mean and rolling-std
columns of `col` and record their names. -/
def statisticalStep (acc : List String × DataFrame) (col : String) :
    List String × DataFrame :=
  let (ns, d) := acc
  let d1 := d.setCol (col ++ "_rolling_mean") .float (rollingMeanCells (d.colVals col))
  let d2 := d1.setCol (col ++ "_rolling_std") .float (rollingStdCells (d1.colVals col))
  (ns ++ [col ++ "_rolling_mean", col ++ "_rolling_std"], d2)

/-- `_create_statistical_features` (feature_engineer.py lines 108-124), acting
on the copy's content: only when at least 3 numeric columns exist, process the
first 3. -/
def statisticalCore (df : DataFrame) : List String × DataFrame :=
  if 3 ≤ (numericNames df).length then
    ((numericNames df).take 3).foldl statisticalStep ([], df)
  else ([], df)

/-- The numeric predictor columns of `_select_features` (feature_engineer.py
lines 128-132): `data.drop(columns=[target]).select_dtypes(include=[np.number])`. -/
def numericPredictors (df : DataFrame) (target : String) : List Column :=
  (df.cols.filter fun c => c.name ≠ target).filter fun c => c.dtype == .float

/-- Python dict assignment `d[k] = v`: overwrite in place when the key exists,
append otherwise (insertion order preserved). -/
def dictSet (d : List (String × ℚ)) (k : String) (v : ℚ) : List (String × ℚ) :=
  if d.any (·.1 == k) then d.map fun kv => if kv.1 == k then (k, v) else kv
  else d ++ [(k, v)]

/-- The indices of the `k` best-scoring predictors.  Modelled from sklearn:
`SelectKBest(score_func=mutual_info_classif, k).fit(X, y).get_support()`
selects the `k` features of highest score (`mutual_info_classif` is
randomized, so the score of each predictor is the abstract parameter
`scoreOf`; exact tie-breaking among equal scores is not pinned down by the
sources and none of the verified properties depends on it). -/
def topKIdx (scores : List ℚ) (k : ℕ) : List ℕ :=
  ((List.range scores.length).mergeSort fun i j => scores.getD j 0 ≤ scores.getD i 0).take k

/-- The selected predictor columns, in table order: `X_numeric.columns[mask]`
where the mask keeps the `k = min(max_features, #predictors)` best-scoring
features. -/
def selColsOf (scoreOf : String → ℚ) (maxf : ℕ) (df : DataFrame)
    (target : String) : List Column :=
  let Xnum := numericPredictors df target
  let k := min maxf Xnum.length
  let chosen := topKIdx (Xnum.map fun c => scoreOf c.name) k
  ((List.range Xnum.length).filter fun i => chosen.contains i).filterMap
    fun i => Xnum.get? i

/-- `_select_features` (feature_engineer.py lines 126-154).  When there is no
numeric predictor the table is returned unchanged (line 134-135); otherwise
the `k = min(max_features, #predictors)` best-scoring predictors are kept:
`self.selected_features` is overwritten with their names in table order
(`X_numeric.columns[mask]`), every predictor's score is recorded in
`self.feature_importance`, and the result is the selected columns followed by
the target column (`result_data[target_column] = y`). -/
def selectBody (scoreOf : String → ℚ) (fe : FeatureEngineer) (df : DataFrame)
    (target : String) : FeatureEngineer × DataFrame :=
  let Xnum := numericPredictors df target
  if Xnum.length = 0 then (fe, df)
  else
    let selCols := selColsOf scoreOf fe.max_features df target
    let y : Column := (df.getCol? target).getD ⟨target, .float, []⟩
    let fe2 : FeatureEngineer :=
      { fe with
        selected_features := selCols.map (·.name)
        feature_importance := Xnum.foldl (fun d c => dictSet d c.name (scoreOf c.name))
          fe.feature_importance }
    (fe2, ⟨selCols ++ [⟨target, y.dtype, y.values⟩]⟩)

/-! ### `create_features` and the object store

Python passes DataFrames by reference and the cleaning/feature code mutates
the frames it works on, so frame identity matters for the no-mutation claim.
The store is modelled as a list of frames addressed by index: `data.copy()`
allocates a fresh frame at the end of the store, and every in-place column
assignment a helper performs lands on the helper's own fresh copy, modelled as
one store write at that copy's address holding the helper's net effect. -/

/-- Read a store address (a dangling address reads as an empty frame). -/
def readH (h : List DataFrame) (r : ℕ) : DataFrame := h.getD r ⟨[]⟩

/-- `_create_temporal_features` as a store operation (feature_engineer.py
lines 51-82): copy the argument (line 53: allocate the copy at the end of the
store), apply the loop's column writes to the copy (one store write holding
the loop's net effect `temporalCore`), return the copy's address; the loop
also extends `self.created_features` by the names it generated. -/
def temporalH (conv : Value → Option DtParts) (fe : FeatureEngineer)
    (h : List DataFrame) (r : ℕ) : FeatureEngineer × List DataFrame × ℕ :=
  ({ fe with created_features :=
       fe.created_features ++ (temporalCore conv (readH h r)).1 },
   (h ++ [readH h r]).set h.length (temporalCore conv (readH h r)).2, h.length)

/-- `_create_interaction_features` as a store operation (feature_engineer.py
lines 84-106): copy the argument (line 86), write the interaction columns on
the copy, extend `self.created_features`. -/
def interactionH (fe : FeatureEngineer) (h : List DataFrame) (r : ℕ) :
    FeatureEngineer × List DataFrame × ℕ :=
  ({ fe with created_features :=
       fe.created_features ++ (interactionCore (readH h r)).1 },
   (h ++ [readH h r]).set h.length (interactionCore (readH h r)).2, h.length)

/-- `_create_statistical_features` as a store operation (feature_engineer.py
lines 108-124): copy the argument (line 110), write the rolling columns on the
copy, extend `self.created_features`. -/
def statisticalH (fe : FeatureEngineer) (h : List DataFrame) (r : ℕ) :
    FeatureEngineer × List DataFrame × ℕ :=
  ({ fe with created_features :=
       fe.created_features ++ (statisticalCore (readH h r)).1 },
   (h ++ [readH h r]).set h.length (statisticalCore (readH h r)).2, h.length)

/-- `_select_features` as a store operation (feature_engineer.py lines
126-154): with no numeric predictor it returns its argument itself (line 135,
same address); otherwise `X = data.drop(...)` and `result_data = X[...].copy()`
build a fresh frame, allocated here with its final contents. -/
def selectH (scoreOf : String → ℚ) (fe : FeatureEngineer) (h : List DataFrame)
    (r : ℕ) (target : String) : FeatureEngineer × List DataFrame × ℕ :=
  if (numericPredictors (readH h r) target).length = 0 then
    ((selectBody scoreOf fe (readH h r) target).1, h, r)
  else
    ((selectBody scoreOf fe (readH h r) target).1,
     h ++ [(selectBody scoreOf fe (readH h r) target).2], h.length)

/-- `FeatureEngineer.create_features` (feature_engineer.py lines 20-49) as a
store operation: copy the input (line 33), run the three creation helpers in
order, then select features when a target name is given (Python truthiness:
the empty string does not count) and present among the columns. -/
def createFeaturesH (conv : Value → Option DtParts) (scoreOf : String → ℚ)
    (fe : FeatureEngineer) (h : List DataFrame) (r : ℕ) (target : Option String) :
    FeatureEngineer × List DataFrame × ℕ :=
  let s1 := temporalH conv fe (h ++ [readH h r]) h.length
  let s2 := interactionH s1.1 s1.2.1 s1.2.2
  let s3 := statisticalH s2.1 s2.2.1 s2.2.2
  match target with
  | some t =>
    if t ≠ "" ∧ (readH s3.2.1 s3.2.2).hasCol t then selectH scoreOf s3.1 s3.2.1 s3.2.2 t
    else s3
  | none => s3

/-- The created-feature names one `create_features` call generates from a
given input frame: the temporal, interaction and statistical helpers' names,
in call order. -/
def createdBy (conv : Value → Option DtParts) (df : DataFrame) : List String :=
  (temporalCore conv df).1
    ++ (interactionCore (temporalCore conv df).2).1
    ++ (statisticalCore (interactionCore (temporalCore conv df).2).2).1

/-- The engineered frame one `create_features` call builds from a given input
frame before feature selection: the content after the temporal, interaction
and statistical helpers. -/
def frameBy (conv : Value → Option DtParts) (df : DataFrame) : DataFrame :=
  (statisticalCore (interactionCore (temporalCore conv df).2).2).2

/-! ## PipelineGenerator (`src/Source code/pipeline_generator.py`) -/

/-- A JSON value, the interchange form of `json.dump` / `json.load`:
serializing a value of this type and parsing the text back is the identity,
so the JSON export round trip is stated at the level of these values. -/
inductive Json where
  | null : Json
  | bool : Bool → Json
  | num : ℚ → Json
  | str : String → Json
  | arr : List Json → Json
  | obj : List (String × Json) → Json

/-- One recorded pipeline step (pipeline_generator.py lines 31-36): the dict
`{'name': ..., 'function': ..., 'parameters': ..., 'timestamp': ...}` built by
`add_step`; the timestamp is `datetime.now().isoformat()`, passed in here as
an argument since it is read from the clock. -/
structure Step where
  name : String
  function : String
  parameters : Json
  timestamp : String

/-- The instance state of `PipelineGenerator` (pipeline_generator.py lines
18-20). -/
structure PipelineGenerator where
  pipeline_steps : List Step
  pipeline_metadata : List (String × Json)

/-- `PipelineGenerator()`: empty step list and metadata. -/
def PipelineGenerator.init : PipelineGenerator := ⟨[], []⟩

/-- `PipelineGenerator.add_step` (pipeline_generator.py lines 22-37): append
one step with a capture-time timestamp. -/
def addStep (pg : PipelineGenerator) (name fn : String) (params : Json)
    (now : String) : PipelineGenerator :=
  { pg with pipeline_steps := pg.pipeline_steps ++ [⟨name, fn, params, now⟩] }

/-- Python `str()` of a scalar parameter value as interpolated by the code
generator's f-strings.  Composite values (lists/dicts) are not rendered
faithfully here; no verified property inspects generated code text. -/
def jstr : Json → String
  | .str s => s
  | .num q => toString q
  | .bool b => if b then "True" else "False"
  | .null => "None"
  | .arr _ => ""
  | .obj _ => ""

/-- Field lookup in a JSON object (`step['parameters']`, `params['imputation']`,
...); `none` for a missing key or a non-object. -/
def jGet (j : Json) (k : String) : Option Json :=
  match j with
  | .obj kvs => (kvs.find? (·.1 == k)).map (·.2)
  | _ => none

/-- The items of a JSON object (Python `dict.items()` order), `[]` otherwise. -/
def jItems : Json → List (String × Json)
  | .obj kvs => kvs
  | _ => []

/-- The elements of a JSON array, `[]` otherwise. -/
def jElems : Json → List Json
  | .arr l => l
  | _ => []

/-- `PipelineGenerator._generate_cleaning_code` (pipeline_generator.py lines
89-113): render imputation and encoding parameter dicts into code lines. -/
def generateCleaningCode (step : Step) : List String :=
  let params := step.parameters
  let imp : List String :=
    match jGet params "imputation" with
    | none => []
    | some d => (jItems d).foldl (fun acc kv =>
        let col := kv.1
        acc ++
          (match kv.2 with
          | .str "median" =>
            ["    processed_data[\x27" ++ col ++ "\x27].fillna(processed_data[\x27" ++
              col ++ "\x27].median(), inplace=True)"]
          | .str "mean" =>
            ["    processed_data[\x27" ++ col ++ "\x27].fillna(processed_data[\x27" ++
              col ++ "\x27].mean(), inplace=True)"]
          | .str "mode" =>
            ["    processed_data[\x27" ++ col ++ "\x27].fillna(processed_data[\x27" ++
              col ++ "\x27].mode()[0], inplace=True)"]
          | _ => [])) []
  let enc : List String :=
    match jGet params "encoding" with
    | none => []
    | some d => (jItems d).foldl (fun acc kv =>
        let col := kv.1
        acc ++
          (match kv.2 with
          | .str "one_hot" =>
            ["    " ++ col ++ "_encoded = pd.get_dummies(processed_data[\x27" ++ col ++
              "\x27], prefix=\x27" ++ col ++ "\x27)",
             "    processed_data = pd.concat([processed_data, " ++ col ++ "_encoded], axis=1)",
             "    processed_data.drop(\x27" ++ col ++ "\x27, axis=1, inplace=True)"]
          | .str "label" =>
            ["    le = LabelEncoder()",
             "    processed_data[\x27" ++ col ++ "\x27] = le.fit_transform(processed_data[\x27" ++
              col ++ "\x27].astype(str))"]
          | _ => [])) []
  imp ++ enc

/-- `PipelineGenerator._generate_feature_engineering_code`
(pipeline_generator.py lines 115-132). -/
def generateFeatureEngineeringCode (step : Step) : List String :=
  let params := step.parameters
  let temp : List String :=
    match jGet params "temporal_features" with
    | none => []
    | some l => (jElems l).foldl (fun acc el =>
        let col := jstr el
        acc ++
          ["    # Temporal features from " ++ col,
           "    processed_data[\x27" ++ col ++ "\x27] = pd.to_datetime(processed_data[\x27" ++
             col ++ "\x27])",
           "    processed_data[\x27" ++ col ++ "_year\x27] = processed_data[\x27" ++ col ++
             "\x27].dt.year",
           "    processed_data[\x27" ++ col ++ "_month\x27] = processed_data[\x27" ++ col ++
             "\x27].dt.month",
           "    processed_data[\x27" ++ col ++ "_day\x27] = processed_data[\x27" ++ col ++
             "\x27].dt.day"]) []
  let inter : List String :=
    match jGet params "interaction_features" with
    | none => []
    | some l => (jElems l).foldl (fun acc el =>
        match jElems el with
        | [f1, f2] =>
          acc ++ ["    processed_data[\x27" ++ jstr f1 ++ "_x_" ++ jstr f2 ++
            "\x27] = processed_data[\x27" ++ jstr f1 ++ "\x27] * processed_data[\x27" ++
            jstr f2 ++ "\x27]"]
        | _ => acc) []
  temp ++ inter

/-- `PipelineGenerator.generate_python_code` (pipeline_generator.py lines
39-87); `now2` stands for `datetime.now().strftime('%Y-%m-%d %H:%M:%S')`. -/
def generatePythonCode (pg : PipelineGenerator) (now2 : String) : String :=
  let header : List String :=
    ["# Smart ETL Auto-Generated Pipeline",
     "# Generated on: " ++ now2,
     "# This code reproduces the entire data processing pipeline",
     "",
     "import pandas as pd",
     "import numpy as np",
     "from sklearn.impute import SimpleImputer, KNNImputer",
     "from sklearn.preprocessing import StandardScaler, LabelEncoder",
     "from sklearn.feature_selection import SelectKBest, mutual_info_classif",
     "",
     "def run_smart_etl_pipeline(data):",
     "    \"\"\"",
     "    Execute the complete Smart ETL pipeline.",
     "    \"\"\"",
     "    processed_data = data.copy()",
     "    "]
  let body : List String :=
    ((pg.pipeline_steps.zip (List.range pg.pipeline_steps.length)).foldl (fun acc si =>
      let step := si.1
      let lines :=
        ["    # Step " ++ toString (si.2 + 1) ++ ": " ++ step.name] ++
        (if step.function = "data_profiling" then ["    # Data profiling completed"]
         else if step.function = "data_cleaning" then generateCleaningCode step
         else if step.function = "feature_engineering" then generateFeatureEngineeringCode step
         else []) ++ [""]
      acc ++ lines) [])
  let footer : List String :=
    ["    return processed_data",
     "",
     "# Execute pipeline",
     "# processed_data = run_smart_etl_pipeline(your_dataframe)"]
  String.intercalate "\n" (header ++ body ++ footer)

/-- Serialization of one step for the JSON export. -/
def stepToJson (s : Step) : Json :=
  .obj [("name", .str s.name), ("function", .str s.function),
        ("parameters", s.parameters), ("timestamp", .str s.timestamp)]

/-- The JSON document `save_pipeline` writes in the `json` format
(pipeline_generator.py lines 153-160): `{metadata, steps, generated_at}`;
`genAt` stands for `datetime.now().isoformat()`. -/
def pipelineJson (pg : PipelineGenerator) (genAt : String) : Json :=
  .obj [("metadata", .obj pg.pipeline_metadata),
        ("steps", .arr (pg.pipeline_steps.map stepToJson)),
        ("generated_at", .str genAt)]

/-- What `save_pipeline` writes to the target path, when it writes at all. -/
inductive Saved where
  | pythonFile : String → Saved
  | jsonFile : Json → Saved
  | pickleFile : Saved

/-- `PipelineGenerator.save_pipeline` (pipeline_generator.py lines 134-171) on
the success path (the directory creation and file writes succeed; any I/O
exception would be caught and yield `False` instead).  The if/elif chain has
no else branch: a format other than `python`, `json` and `pickle` falls
through without opening a file, and the function still prints the success
message and returns `True`.  The returned pair is (return value, file written
at `filepath`); `now` stands for the capture-time clock readings. -/
def savePipeline (pg : PipelineGenerator) (now : String) (format : String) :
    Bool × Option Saved :=
  if format = "python" then (true, some (.pythonFile (generatePythonCode pg now)))
  else if format = "json" then (true, some (.jsonFile (pipelineJson pg now)))
  else if format = "pickle" then (true, some .pickleFile)
  else (true, none)

/-- Reading one step back out of a parsed export document: the
`{name, function, parameters}` triple, timestamps ignored. -/
def parseStep (j : Json) : Option (String × String × Json) :=
  match jGet j "name", jGet j "function", jGet j "parameters" with
  | some (.str n), some (.str f), some p => some (n, f, p)
  | _, _, _ => none

/-- Reading every step of a parsed steps array (failing on any malformed
entry). -/
def parseStepList : List Json → Option (List (String × String × Json))
  | [] => some []
  | j :: rest =>
    match parseStep j, parseStepList rest with
    | some s, some ss => some (s :: ss)
    | _, _ => none

/-- Reading the ordered `{name, function, parameters}` list back out of a
parsed export document. -/
def parseStepsDoc (doc : Json) : Option (List (String × String × Json)) :=
  match jGet doc "steps" with
  | some (.arr l) => parseStepList l
  | _ => none

/-! ### Fixtures and generated-name lists used by the verification -/

/-- The column names the interaction loop generates for a pair list (both the
product and the ratio name of every pair, whether or not the ratio column ends
up created). -/
def genNames (l : List (String × String)) : List String :=
  l.bind fun p => [xName p, divName p]

/-- The rolling-feature names the statistical loop generates for a column
list. -/
def statGenNames (cols : List String) : List String :=
  cols.bind fun c => [c ++ "_rolling_mean", c ++ "_rolling_std"]

/-- The column body of the repository's own test fixture and of the spec's
borderline example: `[1, 2, 3, 4, 5, NaN, 7, 8, 9, 10]`, a numeric column. -/
def c1Column : Column :=
  ⟨"numerical_1", .float,
   [.num 1, .num 2, .num 3, .num 4, .num 5, .na, .num 7, .num 8, .num 9, .num 10]⟩

/-- The two-numeric-column frame used to exhibit accumulation across calls:
the pair `(a, b)` yields the product feature `a_x_b`, and `b`'s zero cell
suppresses the ratio feature. -/
def c2df : DataFrame :=
  ⟨[⟨"a", .float, [.num 1, .num 2]⟩, ⟨"b", .float, [.num 2, .num 0]⟩]⟩

/-- The created-feature names one `create_features` call generates from
`c2df`: the product feature, then the rolling features of the three numeric
columns the engineered frame has by the time the statistical helper runs. -/
def c2names : List String :=
  ["a_x_b", "a_rolling_mean", "a_rolling_std", "b_rolling_mean", "b_rolling_std",
   "a_x_b_rolling_mean", "a_x_b_rolling_std"]

/-- The spec's two-column example frame: `a = [1, 2, 3]`, `b = [2, 0, 4]`. -/
def c4df : DataFrame :=
  ⟨[⟨"a", .float, [.num 1, .num 2, .num 3]⟩,
    ⟨"b", .float, [.num 2, .num 0, .num 4]⟩]⟩

/-- The concrete selection fixture: one numeric predictor plus the target. -/
def c5df : DataFrame :=
  ⟨[⟨"a", .float, [.num 1]⟩, ⟨"t", .float, [.num 2]⟩]⟩

/-- A three-numeric-column frame whose first column is the spec's rolling
example `[10, 20, 30, 40]`. -/
def c6df : DataFrame :=
  ⟨[⟨"a", .float, [.num 10, .num 20, .num 30, .num 40]⟩,
    ⟨"b", .float, [.num 1, .num 2, .num 3, .num 4]⟩,
    ⟨"c", .float, [.num 5, .num 6, .num 7, .num 8]⟩]⟩

/-! ## Library of facts about the embedding

Batteries marks the arithmetic of `Rat` `@[irreducible]`; concrete evaluation
of the embedding (`decide`) needs it unfolded. -/

attribute [local semireducible] Rat.add Rat.mul Rat.sub Rat.inv


theorem missingCells_le_totalCells (df : DataFrame) (hwf : df.WF) :
    missingCells df ≤ totalCells df := by
  unfold missingCells totalCells
  have hb : ∀ x ∈ df.cols.map (fun c => (c.values.filter (· == Value.na)).length),
      x ≤ df.numRows := by
    intro x hx
    obtain ⟨c, hc, rfl⟩ := List.mem_map.1 hx
    calc (c.values.filter (· == Value.na)).length ≤ c.values.length :=
          List.length_filter_le _ _
      _ = df.numRows := hwf c hc
  calc (df.cols.map (fun c => (c.values.filter (· == Value.na)).length)).sum
      ≤ (df.cols.map (fun c => (c.values.filter (· == Value.na)).length)).length
          • df.numRows := List.sum_le_card_nsmul _ _ hb
    _ = df.cols.length * df.numRows := by simp [smul_eq_mul]
    _ = df.numRows * df.cols.length := Nat.mul_comm _ _

theorem completeness_nonneg (df : DataFrame) (hwf : df.WF) (hr : 0 < df.numRows)
    (hc : 0 < df.cols.length) : 0 ≤ completeness_score df := by
  unfold completeness_score
  have ht : (0 : ℚ) < (totalCells df : ℚ) := by
    have : 0 < totalCells df := Nat.mul_pos hr hc
    exact_mod_cast this
  have hle : (missingCells df : ℚ) ≤ (totalCells df : ℚ) := by
    exact_mod_cast missingCells_le_totalCells df hwf
  have : (missingCells df : ℚ) / (totalCells df : ℚ) ≤ 1 := (div_le_one ht).2 hle
  linarith

theorem completeness_le_100 (df : DataFrame) : completeness_score df ≤ 100 := by
  unfold completeness_score
  have h0 : (0 : ℚ) ≤ (missingCells df : ℚ) / (totalCells df : ℚ) :=
    div_nonneg (Nat.cast_nonneg _) (Nat.cast_nonneg _)
  linarith

theorem duplicatePenalty_nonneg (df : DataFrame) : 0 ≤ duplicatePenalty df := by
  unfold duplicatePenalty
  exact mul_nonneg (div_nonneg (Nat.cast_nonneg _) (Nat.cast_nonneg _)) (by norm_num)

/-! ## The claims -/

/-- **C1** (code_bug).  The claim — and the spec's own worked example, and the
repository test `test_data_type_inference`, which expects a non-datetime
numeric label for this very column — describe the intent of
`DataProfiler._infer_data_types`; the code as written diverges from all of
them.  The column `[1,2,3,4,5,NaN,7,8,9,10]`: under the code's actual datetime
check (`pd.to_datetime` succeeds on every numeric series, interpreting numbers
as epoch nanoseconds) the column is labelled `datetime`; under the intended
check (only genuine date/time data qualifies, per the helper's docstring and
the spec) the numeric branch fires and, the column having 9 distinct
non-missing values, the `distinct < 10` rule labels it `categorical`, exactly
as the claim states. -/
theorem c1_numeric_column_mislabelled_datetime :
    inferColumnType (fun _ => false) c1Column = "datetime"
    ∧ inferColumnTypeSpec (fun _ => false) c1Column = "categorical"
    ∧ nuniqueVals c1Column.values = 9 := by decide

/-- **C10**.  For any format string other than `python`, `json` and `pickle`,
`save_pipeline` falls through its if/elif chain without opening a file and
still returns `True`: an unrecognized format is reported as success with no
output written. -/
theorem c10_unknown_format_returns_true_writes_nothing
    (pg : PipelineGenerator) (now fmt : String)
    (h1 : fmt ≠ "python") (h2 : fmt ≠ "json") (h3 : fmt ≠ "pickle") :
    savePipeline pg now fmt = (true, none) := by
  unfold savePipeline
  rw [if_neg h1, if_neg h2, if_neg h3]

/-- Witness for **C10**: the format string `yaml` concretely. -/
theorem c10_unknown_format_returns_true_writes_nothing_witness :
    ("yaml" ≠ "python" ∧ "yaml" ≠ "json" ∧ "yaml" ≠ "pickle")
    ∧ savePipeline PipelineGenerator.init "2025-01-01" "yaml" = (true, none) :=
  ⟨⟨by decide, by decide, by decide⟩,
   c10_unknown_format_returns_true_writes_nothing PipelineGenerator.init "2025-01-01" "yaml"
     (by decide) (by decide) (by decide)⟩

/-- **C3**.  For a table with at least one row and one column, the overall
quality score of `DataProfiler._calculate_quality_metrics` equals the
completeness score minus `10 × (duplicate_row_count / row_count)`, floored at
0, and lies in `[0, 100]`. -/
theorem c3_overall_quality_formula_and_bounds (df : DataFrame) (hwf : df.WF)
    (hr : 0 < df.numRows) (hc : 0 < df.cols.length) :
    overall_quality_score df
        = max 0 (completeness_score df
            - 10 * ((duplicatedCount df : ℚ) / (df.numRows : ℚ)))
    ∧ 0 ≤ overall_quality_score df ∧ overall_quality_score df ≤ 100 := by
  refine ⟨?_, le_max_left _ _, ?_⟩
  · unfold overall_quality_score duplicatePenalty
    ring_nf
  · have h100 : completeness_score df - duplicatePenalty df ≤ 100 := by
      have := completeness_le_100 df
      have := duplicatePenalty_nonneg df
      linarith
    exact max_le (by norm_num) h100

/-- Witness for **C3**: a one-column, two-row table with a missing cell and a
duplicate row. -/
theorem c3_overall_quality_formula_and_bounds_witness :
    (let df : DataFrame := ⟨[⟨"a", .float, [.num 1, .num 1, .na]⟩]⟩
     df.WF ∧ 0 < df.numRows ∧ 0 < df.cols.length
     ∧ (overall_quality_score df
          = max 0 (completeness_score df
              - 10 * ((duplicatedCount df : ℚ) / (df.numRows : ℚ)))
        ∧ 0 ≤ overall_quality_score df ∧ overall_quality_score df ≤ 100)) := by
  refine ⟨?_, ?_, ?_, ?_⟩
  · intro c hc
    simp only [List.mem_singleton] at hc
    subst hc
    rfl
  · decide
  · decide
  · exact c3_overall_quality_formula_and_bounds _
      (by intro c hc; simp only [List.mem_singleton] at hc; subst hc; rfl)
      (by decide) (by decide)

/-- **C7**.  Whenever the table has cells at all (here: at least one row and
one column, so `total_cells > 0`), the completeness score is exactly
`100 * (1 - missing_cells / total_cells)` and lies in `[0, 100]`. -/
theorem c7_completeness_formula_and_bounds (df : DataFrame) (hwf : df.WF)
    (hr : 0 < df.numRows) (hc : 0 < df.cols.length) :
    completeness_score df
        = 100 * (1 - (missingCells df : ℚ) / (totalCells df : ℚ))
    ∧ 0 ≤ completeness_score df ∧ completeness_score df ≤ 100 :=
  ⟨rfl, completeness_nonneg df hwf hr hc, completeness_le_100 df⟩

/-- Witness for **C7**: the same concrete table as the C3 witness. -/
theorem c7_completeness_formula_and_bounds_witness :
    (let df : DataFrame := ⟨[⟨"a", .float, [.num 1, .num 1, .na]⟩]⟩
     df.WF ∧ 0 < df.numRows ∧ 0 < df.cols.length
     ∧ (completeness_score df
          = 100 * (1 - (missingCells df : ℚ) / (totalCells df : ℚ))
        ∧ 0 ≤ completeness_score df ∧ completeness_score df ≤ 100)) := by
  refine ⟨?_, by decide, by decide, ?_⟩
  · intro c hc
    simp only [List.mem_singleton] at hc
    subst hc
    rfl
  · exact c7_completeness_formula_and_bounds _
      (by intro c hc; simp only [List.mem_singleton] at hc; subst hc; rfl)
      (by decide) (by decide)

theorem steps_foldl_addStep (args : List (String × String × Json × String))
    (pg : PipelineGenerator) :
    (args.foldl (fun g a => addStep g a.1 a.2.1 a.2.2.1 a.2.2.2) pg).pipeline_steps
      = pg.pipeline_steps ++ args.map fun a => ⟨a.1, a.2.1, a.2.2.1, a.2.2.2⟩ := by
  induction args generalizing pg with
  | nil => simp
  | cons a as ih =>
    rw [List.foldl_cons, ih]
    simp [addStep]

theorem parseStep_stepToJson (s : Step) :
    parseStep (stepToJson s) = some (s.name, s.function, s.parameters) := rfl

theorem parseStepList_map (l : List Step) :
    parseStepList (l.map stepToJson)
      = some (l.map fun s => (s.name, s.function, s.parameters)) := by
  induction l with
  | nil => rfl
  | cons s ss ih => simp [parseStepList, parseStep_stepToJson, ih]

/-- **C8**.  Steps recorded through `add_step` on a fresh generator and
exported with `save_pipeline` in the `json` format, when the written document
is parsed back, reproduce exactly the ordered sequence of
`{name, function, parameters}` arguments that was passed to `add_step`
(timestamps ignored): the export round trip loses neither order nor count. -/
theorem c8_json_export_roundtrip (args : List (String × String × Json × String))
    (genAt : String) :
    savePipeline (args.foldl (fun g a => addStep g a.1 a.2.1 a.2.2.1 a.2.2.2)
        PipelineGenerator.init) genAt "json"
      = (true, some (.jsonFile (pipelineJson
          (args.foldl (fun g a => addStep g a.1 a.2.1 a.2.2.1 a.2.2.2)
            PipelineGenerator.init) genAt)))
    ∧ parseStepsDoc (pipelineJson
        (args.foldl (fun g a => addStep g a.1 a.2.1 a.2.2.1 a.2.2.2)
          PipelineGenerator.init) genAt)
      = some (args.map fun a => (a.1, a.2.1, a.2.2.1)) := by
  constructor
  · rfl
  · have hdoc : ∀ pg : PipelineGenerator,
        parseStepsDoc (pipelineJson pg genAt)
          = parseStepList (pg.pipeline_steps.map stepToJson) := fun _ => rfl
    rw [hdoc, steps_foldl_addStep, parseStepList_map]
    simp [PipelineGenerator.init, List.map_map, Function.comp]


/-- Counterexample to **C2** as stated.  Two successive `create_features`
calls on the same input: after the first call the created-feature list holds
the 7 features of that call; after the second it holds 14 entries — the first
call's names are still there, followed by the second call's (the list is
extended, never reset), so after the second call the list does not "reflect
only the second call". -/
theorem c2_created_features_accumulate_counterexample :
    (createFeaturesH (fun _ => none) (fun _ => 0) FeatureEngineer.init
        [c2df] 0 none).1.created_features = c2names
    ∧ (createFeaturesH (fun _ => none) (fun _ => 0)
        (createFeaturesH (fun _ => none) (fun _ => 0) FeatureEngineer.init
          [c2df] 0 none).1
        (createFeaturesH (fun _ => none) (fun _ => 0) FeatureEngineer.init
          [c2df] 0 none).2.1 0 none).1.created_features = c2names ++ c2names
    ∧ c2names ++ c2names ≠ c2names := by decide

/-- **C2** (amended).  Each `create_features` call APPENDS the feature names
it creates — a function of the input frame alone — to the instance's existing
created-feature list (`self.created_features` is initialized once in the
constructor and only ever extended), so successive calls merge rather than
overwrite; the selected-feature list is either left unchanged (when no
selection runs) or overwritten with the new selection, which is computed from
the engineered frame without reading the previously selected names. -/
theorem set_append_len (g : List DataFrame) (x d : DataFrame) :
    (g ++ [x]).set g.length d = g ++ [d] := by
  induction g with
  | nil => rfl
  | cons a as ih => simpa using ih

theorem readH_append_len (g : List DataFrame) (d : DataFrame) :
    readH (g ++ [d]) g.length = d := by
  unfold readH
  induction g with
  | nil => rfl
  | cons a as ih => simpa using ih

theorem readH_append_lt (g : List DataFrame) (x : DataFrame) (j : ℕ)
    (hj : j < g.length) : readH (g ++ [x]) j = readH g j := by
  unfold readH
  induction g generalizing j with
  | nil => exact absurd hj (Nat.not_lt_zero j)
  | cons a as ih =>
    cases j with
    | zero => rfl
    | succ j => exact ih j (Nat.lt_of_succ_lt_succ hj)

theorem temporalH_fst (conv : Value → Option DtParts) (fe : FeatureEngineer)
    (h : List DataFrame) (r : ℕ) :
    (temporalH conv fe h r).1
      = { fe with created_features :=
            fe.created_features ++ (temporalCore conv (readH h r)).1 } := rfl

theorem readH_temporalH (conv : Value → Option DtParts) (fe : FeatureEngineer)
    (h : List DataFrame) (r : ℕ) :
    readH (temporalH conv fe h r).2.1 (temporalH conv fe h r).2.2
      = (temporalCore conv (readH h r)).2 := by
  show readH ((h ++ [readH h r]).set h.length (temporalCore conv (readH h r)).2)
      h.length = _
  rw [set_append_len, readH_append_len]

theorem interactionH_fst (fe : FeatureEngineer) (h : List DataFrame) (r : ℕ) :
    (interactionH fe h r).1
      = { fe with created_features :=
            fe.created_features ++ (interactionCore (readH h r)).1 } := rfl

theorem readH_interactionH (fe : FeatureEngineer) (h : List DataFrame) (r : ℕ) :
    readH (interactionH fe h r).2.1 (interactionH fe h r).2.2
      = (interactionCore (readH h r)).2 := by
  show readH ((h ++ [readH h r]).set h.length (interactionCore (readH h r)).2)
      h.length = _
  rw [set_append_len, readH_append_len]

theorem statisticalH_fst (fe : FeatureEngineer) (h : List DataFrame) (r : ℕ) :
    (statisticalH fe h r).1
      = { fe with created_features :=
            fe.created_features ++ (statisticalCore (readH h r)).1 } := rfl

theorem readH_statisticalH (fe : FeatureEngineer) (h : List DataFrame) (r : ℕ) :
    readH (statisticalH fe h r).2.1 (statisticalH fe h r).2.2
      = (statisticalCore (readH h r)).2 := by
  show readH ((h ++ [readH h r]).set h.length (statisticalCore (readH h r)).2)
      h.length = _
  rw [set_append_len, readH_append_len]

theorem selectH_fst (scoreOf : String → ℚ) (fe : FeatureEngineer)
    (h : List DataFrame) (r : ℕ) (t : String) :
    (selectH scoreOf fe h r t).1 = (selectBody scoreOf fe (readH h r) t).1 := by
  unfold selectH
  split <;> rfl

theorem selectBody_empty (scoreOf : String → ℚ) (fe : FeatureEngineer)
    (df : DataFrame) (t : String) (hn : (numericPredictors df t).length = 0) :
    selectBody scoreOf fe df t = (fe, df) := by
  unfold selectBody
  dsimp only
  rw [if_pos hn]

theorem selectBody_fst_created (scoreOf : String → ℚ) (fe : FeatureEngineer)
    (df : DataFrame) (t : String) :
    (selectBody scoreOf fe df t).1.created_features = fe.created_features := by
  unfold selectBody
  dsimp only
  split <;> rfl

theorem selectBody_fst_max (scoreOf : String → ℚ) (fe : FeatureEngineer)
    (df : DataFrame) (t : String) :
    (selectBody scoreOf fe df t).1.max_features = fe.max_features := by
  unfold selectBody
  dsimp only
  split <;> rfl

theorem selectBody_fst_selected (scoreOf : String → ℚ) (fe : FeatureEngineer)
    (df : DataFrame) (t : String) (hn : ¬(numericPredictors df t).length = 0) :
    (selectBody scoreOf fe df t).1.selected_features
      = (selColsOf scoreOf fe.max_features df t).map (·.name) := by
  unfold selectBody
  dsimp only
  rw [if_neg hn]

/-- The `FeatureEngineer` state a `create_features` call on `target = none`
leaves behind. -/
theorem createFeaturesH_fe_none (conv : Value → Option DtParts)
    (scoreOf : String → ℚ) (fe : FeatureEngineer) (h : List DataFrame) (r : ℕ) :
    (createFeaturesH conv scoreOf fe h r none).1
      = { fe with created_features :=
            fe.created_features ++ createdBy conv (readH h r) } := by
  unfold createFeaturesH
  rw [statisticalH_fst, readH_interactionH, interactionH_fst, readH_temporalH,
    temporalH_fst, readH_append_len]
  simp only [createdBy, List.append_assoc]

/-- The `FeatureEngineer` state a `create_features` call on `target = some t`
leaves behind: the created list is extended by `createdBy`, and selection
(when its guard holds) acts on `frameBy`. -/
theorem createFeaturesH_fe_some (conv : Value → Option DtParts)
    (scoreOf : String → ℚ) (fe : FeatureEngineer) (h : List DataFrame) (r : ℕ)
    (t : String) :
    (createFeaturesH conv scoreOf fe h r (some t)).1
      = (if t ≠ "" ∧ (frameBy conv (readH h r)).hasCol t then
          (selectBody scoreOf
            { fe with created_features :=
                fe.created_features ++ createdBy conv (readH h r) }
            (frameBy conv (readH h r)) t).1
        else
          { fe with created_features :=
              fe.created_features ++ createdBy conv (readH h r) }) := by
  unfold createFeaturesH
  rw [apply_ite (f := fun s : FeatureEngineer × List DataFrame × ℕ => s.1),
    selectH_fst, readH_statisticalH, readH_interactionH, readH_temporalH,
    statisticalH_fst, readH_interactionH, interactionH_fst, readH_temporalH,
    temporalH_fst, readH_append_len]
  dsimp only
  simp only [createdBy, frameBy, List.append_assoc]

/-- **C2** (amended).  Each `create_features` call APPENDS the feature names
it creates — a function of the input frame alone — to the instance's existing
created-feature list (`self.created_features` is initialized once in the
constructor and only ever extended), so successive calls merge rather than
overwrite; the selected-feature list is either left unchanged (when no
selection runs) or overwritten with the new selection, which is computed from
the engineered frame without reading the previously selected names. -/
theorem c2_created_list_appends_selected_overwrites
    (conv : Value → Option DtParts) (scoreOf : String → ℚ)
    (fe : FeatureEngineer) (h : List DataFrame) (r : ℕ) (target : Option String) :
    (createFeaturesH conv scoreOf fe h r target).1.created_features
        = fe.created_features ++ createdBy conv (readH h r)
    ∧ ((createFeaturesH conv scoreOf fe h r target).1.selected_features
          = fe.selected_features
       ∨ ∃ t, target = some t
          ∧ (createFeaturesH conv scoreOf fe h r target).1.selected_features
              = (selColsOf scoreOf fe.max_features (frameBy conv (readH h r)) t).map
                  (·.name)) := by
  cases target with
  | none => rw [createFeaturesH_fe_none]; exact ⟨rfl, Or.inl rfl⟩
  | some t =>
    rw [createFeaturesH_fe_some]
    by_cases hg : t ≠ "" ∧ (frameBy conv (readH h r)).hasCol t
    · rw [if_pos hg]
      constructor
      · rw [selectBody_fst_created]
      · by_cases hn : (numericPredictors (frameBy conv (readH h r)) t).length = 0
        · rw [selectBody_empty _ _ _ _ hn]
          exact Or.inl rfl
        · refine Or.inr ⟨t, rfl, ?_⟩
          rw [selectBody_fst_selected _ _ _ _ hn]
    · rw [if_neg hg]
      exact ⟨rfl, Or.inl rfl⟩

theorem readH_aw_lt (g : List DataFrame) (x d : DataFrame) (j : ℕ)
    (hj : j < g.length) :
    readH ((g ++ [x]).set g.length d) j = readH g j := by
  rw [set_append_len]
  exact readH_append_lt g d j hj

/-- **C9**.  `create_features` never mutates the frame it is given: every
helper works on a fresh copy (`data.copy()` at feature_engineer.py lines 33,
53, 86, 110 and the `drop`/`.copy()` pair at lines 128, 150), and all column
writes land on those copies, so after the call the frame at the input's store
address is exactly the frame that was there before. -/
theorem c9_create_features_never_mutates_input (conv : Value → Option DtParts)
    (scoreOf : String → ℚ) (fe : FeatureEngineer) (h : List DataFrame) (r : ℕ)
    (target : Option String) (hr : r < h.length) :
    readH (createFeaturesH conv scoreOf fe h r target).2.1 r = readH h r := by
  cases target with
  | none =>
    unfold createFeaturesH temporalH interactionH statisticalH
    dsimp only
    rw [readH_aw_lt, readH_aw_lt, readH_aw_lt, readH_append_lt] <;>
      (try simp only [List.length_set, List.length_append, List.length_singleton]) <;>
      omega
  | some t =>
    unfold createFeaturesH temporalH interactionH statisticalH selectH
    dsimp only
    split
    · split
      · rw [readH_aw_lt, readH_aw_lt, readH_aw_lt, readH_append_lt] <;>
          (try simp only [List.length_set, List.length_append,
            List.length_singleton]) <;>
          omega
      · rw [readH_append_lt, readH_aw_lt, readH_aw_lt, readH_aw_lt,
          readH_append_lt] <;>
          (try simp only [List.length_set, List.length_append,
            List.length_singleton]) <;>
          omega
    · rw [readH_aw_lt, readH_aw_lt, readH_aw_lt, readH_append_lt] <;>
        (try simp only [List.length_set, List.length_append,
          List.length_singleton]) <;>
        omega

/-- Witness for **C9**: a concrete one-frame store. -/
theorem c9_create_features_never_mutates_input_witness :
    0 < ([c2df] : List DataFrame).length
    ∧ readH (createFeaturesH (fun _ => none) (fun _ => 0) FeatureEngineer.init
        [c2df] 0 none).2.1 0 = readH [c2df] 0 :=
  ⟨by decide,
   c9_create_features_never_mutates_input (fun _ => none) (fun _ => 0)
     FeatureEngineer.init [c2df] 0 none (by decide)⟩

theorem selectBody_snd (scoreOf : String → ℚ) (fe : FeatureEngineer)
    (df : DataFrame) (t : String) (hn : ¬(numericPredictors df t).length = 0) :
    (selectBody scoreOf fe df t).2
      = ⟨selColsOf scoreOf fe.max_features df t
          ++ [⟨t, ((df.getCol? t).getD ⟨t, .float, []⟩).dtype,
               ((df.getCol? t).getD ⟨t, .float, []⟩).values⟩]⟩ := by
  unfold selectBody
  dsimp only
  rw [if_neg hn]

theorem selColsOf_length_le (scoreOf : String → ℚ) (maxf : ℕ) (df : DataFrame)
    (t : String) :
    (selColsOf scoreOf maxf df t).length
      ≤ min maxf (numericPredictors df t).length := by
  unfold selColsOf
  dsimp only
  have h1 : (((List.range (numericPredictors df t).length).filter fun i =>
        (topKIdx ((numericPredictors df t).map fun c => scoreOf c.name)
          (min maxf (numericPredictors df t).length)).contains i).filterMap
        fun i => (numericPredictors df t).get? i).length
      ≤ ((List.range (numericPredictors df t).length).filter fun i =>
        (topKIdx ((numericPredictors df t).map fun c => scoreOf c.name)
          (min maxf (numericPredictors df t).length)).contains i).length :=
    List.length_filterMap_le _ _
  have h2 : (((List.range (numericPredictors df t).length).filter fun i =>
        (topKIdx ((numericPredictors df t).map fun c => scoreOf c.name)
          (min maxf (numericPredictors df t).length)).contains i)).length
      ≤ (topKIdx ((numericPredictors df t).map fun c => scoreOf c.name)
          (min maxf (numericPredictors df t).length)).length := by
    refine List.Subperm.length_le (List.subperm_of_subset ?_ ?_)
    · exact (List.nodup_range _).filter _
    · intro i hi
      have := (List.mem_filter.mp hi).2
      exact (List.elem_iff.mp this)
  have h3 : (topKIdx ((numericPredictors df t).map fun c => scoreOf c.name)
        (min maxf (numericPredictors df t).length)).length
      ≤ min maxf (numericPredictors df t).length := by
    unfold topKIdx
    rw [List.length_take, List.length_mergeSort, List.length_range,
      List.length_map]
    omega
  omega

theorem selColsOf_subset (scoreOf : String → ℚ) (maxf : ℕ) (df : DataFrame)
    (t : String) :
    ∀ c ∈ selColsOf scoreOf maxf df t, c ∈ numericPredictors df t := by
  intro c hc
  unfold selColsOf at hc
  dsimp only at hc
  obtain ⟨i, _, hget⟩ := List.mem_filterMap.mp hc
  exact List.get?_mem hget

/-- **C5**.  `_select_features` with a target present: when there is no
numeric predictor column, selection is skipped and the table is returned
unchanged; otherwise at most `min(max_features, numeric_predictor_count)`
columns are selected, the returned table's columns are exactly the selected
names followed by the target (no extras, no omissions), and every selected
name is the name of a numeric predictor. -/
theorem c5_selection_bound_and_exact_columns (scoreOf : String → ℚ)
    (fe : FeatureEngineer) (df : DataFrame) (t : String)
    (ht : df.hasCol t = true) :
    (numericPredictors df t = [] → selectBody scoreOf fe df t = (fe, df))
    ∧ (numericPredictors df t ≠ [] →
        (selectBody scoreOf fe df t).1.selected_features.length
            ≤ min fe.max_features (numericPredictors df t).length
        ∧ (selectBody scoreOf fe df t).2.names
            = (selectBody scoreOf fe df t).1.selected_features ++ [t]
        ∧ ∀ n ∈ (selectBody scoreOf fe df t).1.selected_features,
            n ∈ (numericPredictors df t).map (·.name)) := by
  constructor
  · intro he
    exact selectBody_empty _ _ _ _ (by rw [he]; rfl)
  · intro hne
    have hn0 : ¬(numericPredictors df t).length = 0 := by
      simpa [List.length_eq_zero] using hne
    refine ⟨?_, ?_, ?_⟩
    · rw [selectBody_fst_selected _ _ _ _ hn0, List.length_map]
      exact selColsOf_length_le _ _ _ _
    · rw [selectBody_fst_selected _ _ _ _ hn0, selectBody_snd _ _ _ _ hn0]
      simp [DataFrame.names]
    · intro n hn
      rw [selectBody_fst_selected _ _ _ _ hn0] at hn
      obtain ⟨c, hc, rfl⟩ := List.mem_map.mp hn
      exact List.mem_map_of_mem _ (selColsOf_subset _ _ _ _ c hc)


/-- Witness for **C5**: on `c5df` with target `t`, the nonempty-predictor arm
concretely. -/
theorem c5_selection_bound_and_exact_columns_witness :
    c5df.hasCol "t" = true
    ∧ numericPredictors c5df "t" ≠ []
    ∧ ((selectBody (fun _ => 0) FeatureEngineer.init c5df "t").1.selected_features.length
          ≤ min 50 (numericPredictors c5df "t").length
       ∧ (selectBody (fun _ => 0) FeatureEngineer.init c5df "t").2.names
          = (selectBody (fun _ => 0) FeatureEngineer.init c5df "t").1.selected_features
              ++ ["t"]
       ∧ ∀ n ∈ (selectBody (fun _ => 0) FeatureEngineer.init c5df "t").1.selected_features,
           n ∈ (numericPredictors c5df "t").map (·.name)) :=
  ⟨by decide, by decide,
   (c5_selection_bound_and_exact_columns (fun _ => 0) FeatureEngineer.init c5df "t"
     (by decide)).2 (by decide)⟩

theorem find?_map_replace (cols : List Column) (n : String) (dt : Dtype)
    (vs : List Value) (h : cols.any (·.name == n) = true) :
    (cols.map fun c => if c.name == n then (⟨n, dt, vs⟩ : Column) else c).find?
      (·.name == n) = some ⟨n, dt, vs⟩ := by
  induction cols with
  | nil => simp at h
  | cons c cs ih =>
    rw [List.map_cons]
    by_cases hc : c.name = n
    · rw [if_pos (beq_iff_eq.mpr hc)]
      exact List.find?_cons_of_pos (p := fun x : Column => x.name == n) _ (by simp)
    · rw [if_neg (by simp [hc])]
      rw [List.find?_cons_of_neg (p := fun x : Column => x.name == n) _ (by simp [hc])]
      simp only [List.any_cons, Bool.or_eq_true, beq_iff_eq, hc, false_or] at h
      exact ih (by simpa using h)

theorem find?_append_single_self (cols : List Column) (n : String) (dt : Dtype)
    (vs : List Value) (h : cols.any (·.name == n) = false) :
    (cols ++ [(⟨n, dt, vs⟩ : Column)]).find? (·.name == n)
      = some ⟨n, dt, vs⟩ := by
  induction cols with
  | nil => exact List.find?_cons_of_pos (p := fun x : Column => x.name == n) _ (by simp)
  | cons c cs ih =>
    simp only [List.any_cons, Bool.or_eq_false_iff, beq_eq_false_iff_ne] at h
    rw [List.cons_append,
      List.find?_cons_of_neg (p := fun x : Column => x.name == n) _ (by simp [h.1])]
    exact ih h.2

theorem getCol?_setCol_self (df : DataFrame) (n : String) (dt : Dtype)
    (vs : List Value) :
    (df.setCol n dt vs).getCol? n = some ⟨n, dt, vs⟩ := by
  unfold DataFrame.setCol DataFrame.getCol? DataFrame.hasCol
  split
  · exact find?_map_replace df.cols n dt vs (by assumption)
  · refine find?_append_single_self df.cols n dt vs ?_
    rw [← Bool.not_eq_true]
    assumption

theorem colVals_setCol_self (df : DataFrame) (n : String) (dt : Dtype)
    (vs : List Value) : (df.setCol n dt vs).colVals n = vs := by
  unfold DataFrame.colVals
  rw [getCol?_setCol_self]
  rfl

theorem find?_map_replace_ne (cols : List Column) (n : String) (dt : Dtype)
    (vs : List Value) (m : String) (hmn : m ≠ n) :
    (cols.map fun c => if c.name == n then (⟨n, dt, vs⟩ : Column) else c).find?
      (·.name == m) = cols.find? (·.name == m) := by
  induction cols with
  | nil => rfl
  | cons c cs ih =>
    rw [List.map_cons]
    by_cases hc : c.name = n
    · have h2 : ¬c.name = m := by
        rw [hc]
        exact fun he => hmn he.symm
      rw [if_pos (beq_iff_eq.mpr hc),
        List.find?_cons_of_neg (p := fun x : Column => x.name == m) _
          (by simp; exact fun he => hmn he.symm),
        List.find?_cons_of_neg (p := fun x : Column => x.name == m) _ (by simp [h2])]
      exact ih
    · rw [if_neg (by simp [hc])]
      by_cases hm : c.name = m
      · rw [List.find?_cons_of_pos (p := fun x : Column => x.name == m) _ (by simp [hm]),
          List.find?_cons_of_pos (p := fun x : Column => x.name == m) _ (by simp [hm])]
      · rw [List.find?_cons_of_neg (p := fun x : Column => x.name == m) _ (by simp [hm]),
          List.find?_cons_of_neg (p := fun x : Column => x.name == m) _ (by simp [hm])]
        exact ih

theorem getCol?_setCol_ne (df : DataFrame) (n : String) (dt : Dtype)
    (vs : List Value) (m : String) (hmn : m ≠ n) :
    (df.setCol n dt vs).getCol? m = df.getCol? m := by
  unfold DataFrame.setCol DataFrame.getCol?
  split
  · exact find?_map_replace_ne df.cols n dt vs m hmn
  · rw [List.find?_append]
    have hnone : ([(⟨n, dt, vs⟩ : Column)].find? (·.name == m)) = none := by
      rw [List.find?_cons_of_neg (p := fun x : Column => x.name == m) _
        (by simp; exact fun he => hmn he.symm)]
      rfl
    rw [hnone]
    cases df.cols.find? (·.name == m) <;> rfl

theorem colVals_setCol_ne (df : DataFrame) (n : String) (dt : Dtype)
    (vs : List Value) (m : String) (hmn : m ≠ n) :
    (df.setCol n dt vs).colVals m = df.colVals m := by
  unfold DataFrame.colVals
  rw [getCol?_setCol_ne _ _ _ _ _ hmn]

theorem hasCol_eq_isSome (df : DataFrame) (m : String) :
    df.hasCol m = (df.getCol? m).isSome := by
  unfold DataFrame.hasCol DataFrame.getCol?
  induction df.cols with
  | nil => rfl
  | cons c cs ih =>
    by_cases h : c.name = m
    · rw [List.any_cons,
        List.find?_cons_of_pos (p := fun x : Column => x.name == m) _ (by simp [h])]
      simp [h]
    · rw [List.any_cons,
        List.find?_cons_of_neg (p := fun x : Column => x.name == m) _ (by simp [h])]
      simp [h, ih]

theorem hasCol_setCol_self (df : DataFrame) (n : String) (dt : Dtype)
    (vs : List Value) : (df.setCol n dt vs).hasCol n = true := by
  rw [hasCol_eq_isSome, getCol?_setCol_self]
  rfl

theorem hasCol_setCol_ne (df : DataFrame) (n : String) (dt : Dtype)
    (vs : List Value) (m : String) (hmn : m ≠ n) :
    (df.setCol n dt vs).hasCol m = df.hasCol m := by
  rw [hasCol_eq_isSome, hasCol_eq_isSome, getCol?_setCol_ne _ _ _ _ _ hmn]

theorem hasCol_iff_mem_names (df : DataFrame) (m : String) :
    df.hasCol m = true ↔ m ∈ df.names := by
  unfold DataFrame.hasCol DataFrame.names
  rw [List.any_eq_true]
  constructor
  · rintro ⟨c, hc, he⟩
    rw [beq_iff_eq] at he
    exact he ▸ List.mem_map_of_mem _ hc
  · intro hm
    obtain ⟨c, hc, he⟩ := List.mem_map.mp hm
    exact ⟨c, hc, beq_iff_eq.mpr he⟩


theorem interFold_untouched (l : List (String × String))
    (s : List String × DataFrame) (c : String) (hc : c ∉ genNames l) :
    (l.foldl interactionStep s).2.getCol? c = s.2.getCol? c := by
  induction l generalizing s with
  | nil => rfl
  | cons q rest ih =>
    have hgn : genNames (q :: rest) = xName q :: divName q :: genNames rest := rfl
    rw [hgn] at hc
    have hcx : c ≠ xName q := fun he => hc (he ▸ List.mem_cons_self _ _)
    have hcd : c ≠ divName q := fun he =>
      hc (he ▸ List.mem_cons_of_mem _ (List.mem_cons_self _ _))
    have hcrest : c ∉ genNames rest := fun he =>
      hc (List.mem_cons_of_mem _ (List.mem_cons_of_mem _ he))
    rw [List.foldl_cons, ih _ hcrest]
    unfold interactionStep
    dsimp only
    split
    · rw [getCol?_setCol_ne _ _ _ _ _ hcd, getCol?_setCol_ne _ _ _ _ _ hcx]
    · rw [getCol?_setCol_ne _ _ _ _ _ hcx]

theorem interFold_untouched_colVals (l : List (String × String))
    (s : List String × DataFrame) (c : String) (hc : c ∉ genNames l) :
    (l.foldl interactionStep s).2.colVals c = s.2.colVals c := by
  unfold DataFrame.colVals
  rw [interFold_untouched l s c hc]

theorem interFold_untouched_hasCol (l : List (String × String))
    (s : List String × DataFrame) (c : String) (hc : c ∉ genNames l) :
    (l.foldl interactionStep s).2.hasCol c = s.2.hasCol c := by
  rw [hasCol_eq_isSome, hasCol_eq_isSome, interFold_untouched l s c hc]

theorem interFold_main (l : List (String × String)) (df : DataFrame) :
    ∀ s : List String × DataFrame,
    (∀ p ∈ l, p.1 ∈ df.names ∧ p.2 ∈ df.names) →
    (∀ c ∈ df.names, s.2.colVals c = df.colVals c) →
    (∀ g ∈ genNames l, g ∉ df.names) →
    (∀ g ∈ genNames l, s.2.hasCol g = false) →
    (genNames l).Nodup →
    ∀ p ∈ l,
      ((l.foldl interactionStep s).2.hasCol (xName p) = true)
      ∧ ((l.foldl interactionStep s).2.colVals (xName p)
          = List.zipWith vmul (df.colVals p.1) (df.colVals p.2))
      ∧ ((l.foldl interactionStep s).2.hasCol (divName p)
          = noZero (df.colVals p.2))
      ∧ (noZero (df.colVals p.2) = true →
          (l.foldl interactionStep s).2.colVals (divName p)
            = List.zipWith vdiv (df.colVals p.1) (df.colVals p.2)) := by
  induction l with
  | nil => intro s _ _ _ _ _ p hp; cases hp
  | cons q rest ih =>
    intro s Hsub Hvals Hfresh Hhas Hnodup p hp
    have hgn : genNames (q :: rest) = xName q :: divName q :: genNames rest := rfl
    rw [hgn] at Hfresh Hhas Hnodup
    have hq1 : q.1 ∈ df.names := (Hsub q (List.mem_cons_self _ _)).1
    have hq2 : q.2 ∈ df.names := (Hsub q (List.mem_cons_self _ _)).2
    have hx_nin : xName q ∉ df.names := Hfresh _ (List.mem_cons_self _ _)
    have hd_nin : divName q ∉ df.names :=
      Hfresh _ (List.mem_cons_of_mem _ (List.mem_cons_self _ _))
    obtain ⟨hx_notin, Hnodup1⟩ := List.nodup_cons.mp Hnodup
    obtain ⟨hd_notin, Hnodup2⟩ := List.nodup_cons.mp Hnodup1
    have hxd : xName q ≠ divName q := fun he => hx_notin (he ▸ List.mem_cons_self _ _)
    have hx_gen : xName q ∉ genNames rest := fun he =>
      hx_notin (List.mem_cons_of_mem _ he)
    have hsv1 : s.2.colVals q.1 = df.colVals q.1 := Hvals _ hq1
    have hsv2 : s.2.colVals q.2 = df.colVals q.2 := Hvals _ hq2
    have hne1x : q.1 ≠ xName q := fun he => hx_nin (he ▸ hq1)
    have hne2x : q.2 ≠ xName q := fun he => hx_nin (he ▸ hq2)
    have hd1v1 : (s.2.setCol (xName q) .float
          (List.zipWith vmul (s.2.colVals q.1) (s.2.colVals q.2))).colVals q.1
        = df.colVals q.1 := by
      rw [colVals_setCol_ne _ _ _ _ _ hne1x, hsv1]
    have hd1v2 : (s.2.setCol (xName q) .float
          (List.zipWith vmul (s.2.colVals q.1) (s.2.colVals q.2))).colVals q.2
        = df.colVals q.2 := by
      rw [colVals_setCol_ne _ _ _ _ _ hne2x, hsv2]
    have hstep : interactionStep s q
        = (if noZero (df.colVals q.2) then
            (s.1 ++ [xName q] ++ [divName q],
             (s.2.setCol (xName q) .float
                 (List.zipWith vmul (s.2.colVals q.1) (s.2.colVals q.2))).setCol
               (divName q) .float
               (List.zipWith vdiv (df.colVals q.1) (df.colVals q.2)))
          else
            (s.1 ++ [xName q],
             s.2.setCol (xName q) .float
               (List.zipWith vmul (s.2.colVals q.1) (s.2.colVals q.2)))) := by
      unfold interactionStep
      dsimp only
      rw [hd1v2]
      split
      · rw [hd1v1]
      · rfl
    rw [List.foldl_cons, hstep]
    rcases List.mem_cons.mp hp with hpq | hmem
    · subst hpq
      by_cases hz : noZero (df.colVals p.2) = true
      · rw [if_pos hz]
        refine ⟨?_, ?_, ?_, ?_⟩
        · rw [interFold_untouched_hasCol _ _ _ hx_gen]
          dsimp only
          rw [hasCol_setCol_ne _ _ _ _ _ hxd, hasCol_setCol_self]
        · rw [interFold_untouched_colVals _ _ _ hx_gen]
          dsimp only
          rw [colVals_setCol_ne _ _ _ _ _ hxd, colVals_setCol_self, hsv1, hsv2]
        · rw [interFold_untouched_hasCol _ _ _ hd_notin]
          dsimp only
          rw [hasCol_setCol_self, hz]
        · intro _
          rw [interFold_untouched_colVals _ _ _ hd_notin]
          dsimp only
          rw [colVals_setCol_self]
      · rw [if_neg hz]
        rw [Bool.not_eq_true] at hz
        refine ⟨?_, ?_, ?_, ?_⟩
        · rw [interFold_untouched_hasCol _ _ _ hx_gen]
          dsimp only
          rw [hasCol_setCol_self]
        · rw [interFold_untouched_colVals _ _ _ hx_gen]
          dsimp only
          rw [colVals_setCol_self, hsv1, hsv2]
        · rw [interFold_untouched_hasCol _ _ _ hd_notin]
          dsimp only
          rw [hasCol_setCol_ne _ _ _ _ _ (fun he => hxd he.symm), hz]
          exact Hhas _ (List.mem_cons_of_mem _ (List.mem_cons_self _ _))
        · intro hcontra
          rw [hz] at hcontra
          cases hcontra
    · by_cases hz : noZero (df.colVals q.2) = true
      · rw [if_pos hz]
        refine ih _ (fun p' hp' => Hsub p' (List.mem_cons_of_mem _ hp')) ?_
          (fun g hg => Hfresh g (List.mem_cons_of_mem _ (List.mem_cons_of_mem _ hg)))
          ?_ Hnodup2 p hmem
        · intro c hc
          dsimp only
          have hcx : c ≠ xName q := fun he => hx_nin (he ▸ hc)
          have hcd : c ≠ divName q := fun he => hd_nin (he ▸ hc)
          rw [colVals_setCol_ne _ _ _ _ _ hcd, colVals_setCol_ne _ _ _ _ _ hcx]
          exact Hvals c hc
        · intro g hg
          dsimp only
          have hgx : g ≠ xName q := fun he => hx_gen (he ▸ hg)
          have hgd : g ≠ divName q := fun he => hd_notin (he ▸ hg)
          rw [hasCol_setCol_ne _ _ _ _ _ hgd, hasCol_setCol_ne _ _ _ _ _ hgx]
          exact Hhas _ (List.mem_cons_of_mem _ (List.mem_cons_of_mem _ hg))
      · rw [if_neg hz]
        refine ih _ (fun p' hp' => Hsub p' (List.mem_cons_of_mem _ hp')) ?_
          (fun g hg => Hfresh g (List.mem_cons_of_mem _ (List.mem_cons_of_mem _ hg)))
          ?_ Hnodup2 p hmem
        · intro c hc
          dsimp only
          have hcx : c ≠ xName q := fun he => hx_nin (he ▸ hc)
          rw [colVals_setCol_ne _ _ _ _ _ hcx]
          exact Hvals c hc
        · intro g hg
          dsimp only
          have hgx : g ≠ xName q := fun he => hx_gen (he ▸ hg)
          rw [hasCol_setCol_ne _ _ _ _ _ hgx]
          exact Hhas _ (List.mem_cons_of_mem _ (List.mem_cons_of_mem _ hg))

theorem pairsOf_mem (l : List String) (p : String × String)
    (hp : p ∈ pairsOf l) : p.1 ∈ l ∧ p.2 ∈ l := by
  induction l with
  | nil => cases hp
  | cons a as ih =>
    unfold pairsOf at hp
    rcases List.mem_append.mp hp with h | h
    · obtain ⟨d, hd, he⟩ := List.mem_map.mp h
      subst he
      exact ⟨List.mem_cons_self _ _, List.mem_cons_of_mem _ hd⟩
    · exact ⟨List.mem_cons_of_mem _ (ih h).1, List.mem_cons_of_mem _ (ih h).2⟩

theorem numericNames_take_subset (df : DataFrame) (c : String)
    (hc : c ∈ (numericNames df).take 5) : c ∈ df.names := by
  have h1 : c ∈ numericNames df := List.take_subset _ _ hc
  unfold numericNames at h1
  obtain ⟨col, hcol, he⟩ := List.mem_map.mp h1
  subst he
  exact List.mem_map_of_mem _ (List.mem_of_mem_filter hcol)


/-- **C4**.  `_create_interaction_features`: for every ordered pair among the
first at-most-5 numeric columns (their generated names being fresh and
mutually distinct), the product column is always created and holds the
elementwise product of the two source columns; the ratio column exists if and
only if the denominator column contains no zero, in which case it holds the
elementwise quotient.  Concretely, on `a = [1,2,3]`, `b = [2,0,4]` the result
holds `a_x_b = [2, 0, 12]` and no `a_div_b` column, and the only created name
is `a_x_b`. -/
theorem c4_product_always_ratio_iff_no_zero (df : DataFrame)
    (hfresh : (df.names ++ genNames (pairsOf ((numericNames df).take 5))).Nodup) :
    (∀ p ∈ pairsOf ((numericNames df).take 5),
      ((interactionCore df).2.hasCol (xName p) = true)
      ∧ ((interactionCore df).2.colVals (xName p)
          = List.zipWith vmul (df.colVals p.1) (df.colVals p.2))
      ∧ ((interactionCore df).2.hasCol (divName p) = noZero (df.colVals p.2))
      ∧ (noZero (df.colVals p.2) = true →
          (interactionCore df).2.colVals (divName p)
            = List.zipWith vdiv (df.colVals p.1) (df.colVals p.2)))
    ∧ ((interactionCore c4df).2.colVals "a_x_b" = [.num 2, .num 0, .num 12]
       ∧ (interactionCore c4df).2.hasCol "a_div_b" = false
       ∧ (interactionCore c4df).1 = ["a_x_b"]) := by
  constructor
  · obtain ⟨hnup1, hnup2, hdisj⟩ := List.nodup_append.mp hfresh
    intro p hp
    unfold interactionCore
    refine interFold_main _ df ([], df) ?_ (fun c _ => rfl) ?_ ?_ hnup2 p hp
    · intro p' hp'
      have h := pairsOf_mem _ p' hp'
      exact ⟨numericNames_take_subset df _ h.1, numericNames_take_subset df _ h.2⟩
    · intro g hg hmem
      exact hdisj hmem hg
    · intro g hg
      rw [← Bool.not_eq_true]
      intro hcol
      exact hdisj ((hasCol_iff_mem_names df g).mp hcol) hg
  · exact ⟨by decide, by decide, by decide⟩

/-- Witness for **C4**: the general clause applied to the example frame and
its single pair `(a, b)`. -/
theorem c4_product_always_ratio_iff_no_zero_witness :
    ((c4df.names ++ genNames (pairsOf ((numericNames c4df).take 5))).Nodup
     ∧ ("a", "b") ∈ pairsOf ((numericNames c4df).take 5))
    ∧ ((interactionCore c4df).2.hasCol (xName ("a", "b")) = true
       ∧ (interactionCore c4df).2.colVals (xName ("a", "b"))
          = List.zipWith vmul (c4df.colVals "a") (c4df.colVals "b")
       ∧ (interactionCore c4df).2.hasCol (divName ("a", "b"))
          = noZero (c4df.colVals "b")) :=
  ⟨⟨by decide, by decide⟩,
   ⟨((c4_product_always_ratio_iff_no_zero c4df (by decide)).1 ("a", "b")
      (by decide)).1,
    ((c4_product_always_ratio_iff_no_zero c4df (by decide)).1 ("a", "b")
      (by decide)).2.1,
    ((c4_product_always_ratio_iff_no_zero c4df (by decide)).1 ("a", "b")
      (by decide)).2.2.1⟩⟩


theorem statFold_untouched (l : List String) (s : List String × DataFrame)
    (c : String) (hc : c ∉ statGenNames l) :
    (l.foldl statisticalStep s).2.getCol? c = s.2.getCol? c := by
  induction l generalizing s with
  | nil => rfl
  | cons q rest ih =>
    have hgn : statGenNames (q :: rest)
        = (q ++ "_rolling_mean") :: (q ++ "_rolling_std") :: statGenNames rest := rfl
    rw [hgn] at hc
    have hcm : c ≠ q ++ "_rolling_mean" := fun he => hc (he ▸ List.mem_cons_self _ _)
    have hcs : c ≠ q ++ "_rolling_std" := fun he =>
      hc (he ▸ List.mem_cons_of_mem _ (List.mem_cons_self _ _))
    have hcrest : c ∉ statGenNames rest := fun he =>
      hc (List.mem_cons_of_mem _ (List.mem_cons_of_mem _ he))
    rw [List.foldl_cons, ih _ hcrest]
    unfold statisticalStep
    dsimp only
    rw [getCol?_setCol_ne _ _ _ _ _ hcs, getCol?_setCol_ne _ _ _ _ _ hcm]

theorem statFold_untouched_colVals (l : List String)
    (s : List String × DataFrame) (c : String) (hc : c ∉ statGenNames l) :
    (l.foldl statisticalStep s).2.colVals c = s.2.colVals c := by
  unfold DataFrame.colVals
  rw [statFold_untouched l s c hc]

theorem statFold_untouched_hasCol (l : List String)
    (s : List String × DataFrame) (c : String) (hc : c ∉ statGenNames l) :
    (l.foldl statisticalStep s).2.hasCol c = s.2.hasCol c := by
  rw [hasCol_eq_isSome, hasCol_eq_isSome, statFold_untouched l s c hc]

theorem statFold_main (l : List String) (df : DataFrame) :
    ∀ s : List String × DataFrame,
    (∀ c ∈ l, c ∈ df.names) →
    (∀ c ∈ df.names, s.2.colVals c = df.colVals c) →
    (∀ g ∈ statGenNames l, g ∉ df.names) →
    (statGenNames l).Nodup →
    ∀ c ∈ l,
      ((l.foldl statisticalStep s).2.hasCol (c ++ "_rolling_mean") = true)
      ∧ ((l.foldl statisticalStep s).2.colVals (c ++ "_rolling_mean")
          = rollingMeanCells (df.colVals c))
      ∧ ((l.foldl statisticalStep s).2.hasCol (c ++ "_rolling_std") = true)
      ∧ ((l.foldl statisticalStep s).2.colVals (c ++ "_rolling_std")
          = rollingStdCells (df.colVals c)) := by
  induction l with
  | nil => intro s _ _ _ _ c hc; cases hc
  | cons q rest ih =>
    intro s Hsub Hvals Hfresh Hnodup c hc
    have hgn : statGenNames (q :: rest)
        = (q ++ "_rolling_mean") :: (q ++ "_rolling_std") :: statGenNames rest := rfl
    rw [hgn] at Hfresh Hnodup
    have hq : q ∈ df.names := Hsub q (List.mem_cons_self _ _)
    have hm_nin : q ++ "_rolling_mean" ∉ df.names := Hfresh _ (List.mem_cons_self _ _)
    have hs_nin : q ++ "_rolling_std" ∉ df.names :=
      Hfresh _ (List.mem_cons_of_mem _ (List.mem_cons_self _ _))
    obtain ⟨hm_notin, Hnodup1⟩ := List.nodup_cons.mp Hnodup
    obtain ⟨hs_notin, Hnodup2⟩ := List.nodup_cons.mp Hnodup1
    have hms : q ++ "_rolling_mean" ≠ q ++ "_rolling_std" := fun he =>
      hm_notin (he ▸ List.mem_cons_self _ _)
    have hm_gen : q ++ "_rolling_mean" ∉ statGenNames rest := fun he =>
      hm_notin (List.mem_cons_of_mem _ he)
    have hqv : s.2.colVals q = df.colVals q := Hvals _ hq
    have hqm : q ≠ q ++ "_rolling_mean" := fun he => hm_nin (he ▸ hq)
    have hd1q : (s.2.setCol (q ++ "_rolling_mean") .float
          (rollingMeanCells (s.2.colVals q))).colVals q = df.colVals q := by
      rw [colVals_setCol_ne _ _ _ _ _ hqm, hqv]
    have hstep : statisticalStep s q
        = (s.1 ++ [q ++ "_rolling_mean", q ++ "_rolling_std"],
           (s.2.setCol (q ++ "_rolling_mean") .float
               (rollingMeanCells (df.colVals q))).setCol
             (q ++ "_rolling_std") .float (rollingStdCells (df.colVals q))) := by
      unfold statisticalStep
      dsimp only
      rw [hd1q, hqv]
    rw [List.foldl_cons, hstep]
    rcases List.mem_cons.mp hc with hcq | hmem
    · subst hcq
      refine ⟨?_, ?_, ?_, ?_⟩
      · rw [statFold_untouched_hasCol _ _ _ hm_gen]
        dsimp only
        rw [hasCol_setCol_ne _ _ _ _ _ hms, hasCol_setCol_self]
      · rw [statFold_untouched_colVals _ _ _ hm_gen]
        dsimp only
        rw [colVals_setCol_ne _ _ _ _ _ hms, colVals_setCol_self]
      · rw [statFold_untouched_hasCol _ _ _ hs_notin]
        dsimp only
        rw [hasCol_setCol_self]
      · rw [statFold_untouched_colVals _ _ _ hs_notin]
        dsimp only
        rw [colVals_setCol_self]
    · refine ih _ (fun c' hc' => Hsub c' (List.mem_cons_of_mem _ hc')) ?_
        (fun g hg => Hfresh g (List.mem_cons_of_mem _ (List.mem_cons_of_mem _ hg)))
        Hnodup2 c hmem
      intro c' hc'
      dsimp only
      have hcm : c' ≠ q ++ "_rolling_mean" := fun he => hm_nin (he ▸ hc')
      have hcs : c' ≠ q ++ "_rolling_std" := fun he => hs_nin (he ▸ hc')
      rw [colVals_setCol_ne _ _ _ _ _ hcs, colVals_setCol_ne _ _ _ _ _ hcm]
      exact Hvals c' hc'

theorem obsOf_map_num (l : List ℚ) : obsOf (l.map Value.num) = l := by
  induction l with
  | nil => rfl
  | cons a as ih =>
    show a :: obsOf (as.map Value.num) = a :: as
    rw [ih]

theorem obs_window_length (qs : List ℚ) (i : ℕ) (hi : i < qs.length) :
    (obsOf (windowAt (qs.map Value.num) i)).length = min 3 (i + 1) := by
  unfold windowAt
  rw [← List.map_take, ← List.map_drop, obsOf_map_num, List.length_drop,
    List.length_take]
  omega

theorem rollingMeanCell_defined (qs : List ℚ) (i : ℕ) (hi : i < qs.length) :
    rollingMeanCell (qs.map Value.num) i ≠ .na := by
  unfold rollingMeanCell
  rw [if_neg]
  · intro h
    cases h
  · rw [obs_window_length qs i hi]
    omega

theorem rollingStdCell_defined (qs : List ℚ) (i : ℕ) (hi : i < qs.length)
    (h1 : 1 ≤ i) : rollingStdCell (qs.map Value.num) i ≠ .na := by
  unfold rollingStdCell
  rw [if_neg]
  · intro h
    cases h
  · rw [obs_window_length qs i hi]
    omega


/-- Counterexample to **C6** as stated.  On a table with 3 numeric columns the
rolling-std column is created, but its value at the FIRST row is missing:
pandas `rolling(3, min_periods=1).std()` yields `NaN` for a single-observation
window (`ddof=1`), so "both defined (non-missing) even at the first two rows"
fails for the standard deviation at row 0. -/
theorem c6_rolling_std_first_row_missing_counterexample :
    (statisticalCore c6df).2.hasCol "a_rolling_std" = true
    ∧ ((statisticalCore c6df).2.colVals "a_rolling_std").getD 0 .na = .na := by
  decide

/-- **C6** (amended).  For a table with at least 3 numeric columns,
`_create_statistical_features` adds, for each of the first 3 numeric columns
(their generated names being fresh and mutually distinct), a trailing
rolling-mean and a rolling-std column with window 3 and minimum window 1; for
a column of plain numbers the rolling MEAN is defined at every row, including
the first two, while the rolling STD is missing at the first row (the sample
standard deviation of one observation does not exist) and defined from the
second row on; the rolling mean over `[10,20,30,40]` is `[10, 15, 20, 30]`. -/
theorem c6_rolling_columns_amended (df : DataFrame)
    (h3 : 3 ≤ (numericNames df).length)
    (hfresh : (df.names ++ statGenNames ((numericNames df).take 3)).Nodup) :
    (∀ c ∈ (numericNames df).take 3,
      (statisticalCore df).2.hasCol (c ++ "_rolling_mean") = true
      ∧ (statisticalCore df).2.colVals (c ++ "_rolling_mean")
          = rollingMeanCells (df.colVals c)
      ∧ (statisticalCore df).2.hasCol (c ++ "_rolling_std") = true
      ∧ (statisticalCore df).2.colVals (c ++ "_rolling_std")
          = rollingStdCells (df.colVals c))
    ∧ (∀ (qs : List ℚ) (i : ℕ), i < qs.length →
        (rollingMeanCells (qs.map Value.num)).getD i .na ≠ .na
        ∧ (1 ≤ i → (rollingStdCells (qs.map Value.num)).getD i .na ≠ .na))
    ∧ rollingMeanCells ([10, 20, 30, 40].map Value.num)
        = [10, 15, 20, 30].map Value.num
    ∧ (rollingStdCells ([(10 : ℚ), 20, 30, 40].map Value.num)).getD 0 .na = .na := by
  refine ⟨?_, ?_, by decide, by decide⟩
  · obtain ⟨hnup1, hnup2, hdisj⟩ := List.nodup_append.mp hfresh
    intro c hc
    unfold statisticalCore
    rw [if_pos h3]
    refine statFold_main _ df ([], df)
      (fun c' hc' => by
        have h1 : c' ∈ numericNames df := List.take_subset _ _ hc'
        unfold numericNames at h1
        obtain ⟨col, hcol, he⟩ := List.mem_map.mp h1
        subst he
        exact List.mem_map_of_mem _ (List.mem_of_mem_filter hcol))
      (fun c' _ => rfl) (fun g hg hmem => hdisj hmem hg) hnup2 c hc
  · intro qs i hi
    constructor
    · have hlen : (qs.map Value.num).length = qs.length := List.length_map _ _
      have : (rollingMeanCells (qs.map Value.num)).getD i .na
          = rollingMeanCell (qs.map Value.num) i := by
        unfold rollingMeanCells
        rw [List.getD_eq_getElem?_getD, List.getElem?_map, List.getElem?_range
          (by rw [List.length_map]; exact hi)]
        rfl
      rw [this]
      exact rollingMeanCell_defined qs i hi
    · intro h1
      have : (rollingStdCells (qs.map Value.num)).getD i .na
          = rollingStdCell (qs.map Value.num) i := by
        unfold rollingStdCells
        rw [List.getD_eq_getElem?_getD, List.getElem?_map, List.getElem?_range
          (by rw [List.length_map]; exact hi)]
        rfl
      rw [this]
      exact rollingStdCell_defined qs i hi h1

/-- Witness for **C6** (amended): the three-column frame `c6df` and the
example column, at row 1. -/
theorem c6_rolling_columns_amended_witness :
    (3 ≤ (numericNames c6df).length
     ∧ (c6df.names ++ statGenNames ((numericNames c6df).take 3)).Nodup
     ∧ "a" ∈ (numericNames c6df).take 3 ∧ (1 : ℕ) < ([(10 : ℚ), 20, 30, 40]).length)
    ∧ ((statisticalCore c6df).2.hasCol ("a" ++ "_rolling_mean") = true
       ∧ (statisticalCore c6df).2.colVals ("a" ++ "_rolling_mean")
          = rollingMeanCells (c6df.colVals "a")
       ∧ (rollingStdCells ([(10 : ℚ), 20, 30, 40].map Value.num)).getD 1 .na ≠ .na) :=
  ⟨⟨by decide, by decide, by decide, by decide⟩,
   ⟨((c6_rolling_columns_amended c6df (by decide) (by decide)).1 "a" (by decide)).1,
    ((c6_rolling_columns_amended c6df (by decide) (by decide)).1 "a" (by decide)).2.1,
    ((c6_rolling_columns_amended c6df (by decide) (by decide)).2.1
      [(10 : ℚ), 20, 30, 40] 1 (by decide)).2 (by decide)⟩⟩

end SmartETL
